import Mathlib

/-!
# Verification of the Whisper Fedora article-generation pipeline

Shallow embedding of `src/article_generator.py` (classes `TopicAnalysis`,
`Article`, `GenerationResult`, `ArticleGenerator` with its methods
`extract_topics`, `generate_article`, `generate_all_formats`,
`score_quality`, `_extract_title`) together with the parts of the Python
runtime its control flow depends on: `str.strip` / `str.split` /
`str.startswith` / slicing, `json.loads` (RFC-style JSON grammar), Python
`float(...)` conversion, truthiness and `[0]` indexing of parsed values.

Python strings are embedded as `List Char`.  The external LM Studio
service (`lm_client.chat_completion`) is a parameter: each embedded
method takes the response it would receive as an `Option (List Char)`
(`none` = the "absent" signal); progress callbacks are embedded by
returning the list of `(percentage, message)` events the method reports,
in order.  Python exceptions that can escape a method are embedded with
`Except PyErr`; exceptions that the source catches (`json.JSONDecodeError`,
`ValueError` from `float`) are handled inside the corresponding
definitions exactly where the source catches them.

All arithmetic of the progress rescaling
(`base_progress = 30 + int(60 * i / total)`,
`actual = base_progress + int(pct * 0.6 / total)`) is embedded with exact
natural-number floor division; the reachable inner percentages are
0/40/90/100, for which `p * 0.6` is an exact binary float, so Python's
float evaluation agrees with `60 * i / N` and `6 * p / (10 * N)` in exact
arithmetic for every feasible slice count.
-/

namespace WhisperFedora

/-! ## Python string primitives -/

/-- Whitespace as recognised by Python `str.strip()` (ASCII part). -/
def isPyWs (c : Char) : Bool :=
  c = ' ' || c = '\t' || c = '\n' || c = '\x0d' || c = '\x0b' || c = '\x0c'

/-- Whitespace as recognised by the JSON grammar (`json.loads`). -/
def isJsonWs (c : Char) : Bool :=
  c = ' ' || c = '\t' || c = '\n' || c = '\x0d'

/-- Drop leading characters satisfying `p`. -/
def dropLeading (p : Char → Bool) : List Char → List Char
  | [] => []
  | c :: cs => if p c then dropLeading p cs else c :: cs

/-- Python `str.strip()`: drop leading and trailing whitespace. -/
def pyStrip (s : List Char) : List Char :=
  ((dropLeading isPyWs s).reverse |> dropLeading isPyWs).reverse

/-- Strip of leading and trailing JSON whitespace (what `json.loads`
effectively does around the single top-level value). -/
def jsonStrip (s : List Char) : List Char :=
  ((dropLeading isJsonWs s).reverse |> dropLeading isJsonWs).reverse

/-- Python `s.startswith(pre)`. -/
def pyStartsWith : List Char → List Char → Bool
  | [], _ => true
  | _ :: _, [] => false
  | p :: pre, c :: s => p = c && pyStartsWith pre s

/-- The characters of `s` strictly before the first occurrence of `sep`
(all of `s` if `sep` does not occur).  `s.split(sep)[1]`, for a string
that starts with `sep`, is `upToSep sep (s.drop sep.length)`. -/
def upToSep (sep : List Char) : List Char → List Char
  | [] => []
  | c :: cs => if pyStartsWith sep (c :: cs) then [] else c :: upToSep sep cs

/-- `sep` occurs as a contiguous run inside `s`. -/
def hasSeq (sep : List Char) : List Char → Bool
  | [] => pyStartsWith sep []
  | c :: cs => pyStartsWith sep (c :: cs) || hasSeq sep cs

/-- Split a list at every occurrence of the character `sep`
(Python `str.split('\n')`: keeps empty pieces). -/
def splitChar (sep : Char) : List Char → List (List Char)
  | [] => [[]]
  | c :: cs =>
    if c = sep then [] :: splitChar sep cs
    else match splitChar sep cs with
      | [] => [[c]]
      | w :: ws => (c :: w) :: ws

/-- Split at every single whitespace character (keeping empty pieces;
helper for `pySplitWs`). -/
def splitAtWs : List Char → List (List Char)
  | [] => [[]]
  | c :: cs =>
    if isPyWs c then [] :: splitAtWs cs
    else match splitAtWs cs with
      | [] => [[c]]
      | w :: ws => (c :: w) :: ws

/-- Python `str.split()` with no argument: words separated by runs of
whitespace, no empty pieces (equivalently: split at every whitespace
character and drop the empty pieces). -/
def pySplitWs (s : List Char) : List (List Char) :=
  (splitAtWs s).filter (fun w => !w.isEmpty)

/-! ## JSON values and the `json.loads` parser

Embedding of the Python values `json.loads` can return.  Numbers are
kept exact as canonical decimals (the non-finite literals `NaN` /
`Infinity`, which the Python parser also accepts, are not modelled; no
claim depends on them).
Duplicate keys in an object follow Python semantics: the last binding
wins (`lookupLast`). -/

/-- Exact decimal numbers `m / 10^e`, the values JSON number tokens and
Python `float(...)` conversions denote (every such token denotes a
finite decimal).  Kept in the canonical form produced by `Dec.norm`
(factors of 10 cancelled), so structural equality is value equality for
everything the embedding constructs.  (Chosen over `Rat` so that the
kernel can evaluate parses of concrete responses.) -/
structure Dec where
  m : Int
  e : Nat
  deriving DecidableEq, Repr

/-- `10 ^ n` by structural recursion. -/
def pow10 : Nat → Int
  | 0 => 1
  | n + 1 => 10 * pow10 n

/-- Cancel factors of 10 between mantissa and denominator exponent. -/
def Dec.norm : Int → Nat → Dec
  | m, 0 => ⟨m, 0⟩
  | m, e + 1 => if m % 10 = 0 then Dec.norm (m / 10) e else ⟨m, e + 1⟩

instance (n : Nat) : OfNat Dec n := ⟨⟨Int.ofNat n, 0⟩⟩

/-- Negation of a decimal. -/
def Dec.neg (d : Dec) : Dec := ⟨-d.m, d.e⟩

inductive Json where
  | null : Json
  | bool (b : Bool) : Json
  | num (q : Dec) : Json
  | str (s : List Char) : Json
  | arr (xs : List Json) : Json
  | obj (kvs : List (List Char × Json)) : Json

/-- Python `dict` built from a JSON object: on duplicate keys the last
binding wins, so lookup returns the value of the last matching pair. -/
def lookupLast (k : List Char) : List (List Char × Json) → Option Json
  | [] => none
  | (k', v) :: rest =>
    match lookupLast k rest with
    | some r => some r
    | none => if k' = k then some v else none

/-- Value of a hexadecimal digit, for `\uXXXX` string escapes. -/
def hexVal (c : Char) : Option Nat :=
  if '0' ≤ c ∧ c ≤ '9' then some (c.toNat - '0'.toNat)
  else if 'a' ≤ c ∧ c ≤ 'f' then some (c.toNat - 'a'.toNat + 10)
  else if 'A' ≤ c ∧ c ≤ 'F' then some (c.toNat - 'A'.toNat + 10)
  else none

/-- One-character JSON string escapes (`\"`, `\\`, `\/`, `\b`, `\f`,
`\n`, `\r`, `\t`). -/
def escChar (c : Char) : Option Char :=
  if c = '"' then some '"'
  else if c = '\\' then some '\\'
  else if c = '/' then some '/'
  else if c = 'b' then some '\x08'
  else if c = 'f' then some '\x0c'
  else if c = 'n' then some '\n'
  else if c = 'r' then some '\x0d'
  else if c = 't' then some '\t'
  else none

/-- Body of a JSON string literal, after the opening quote.  Returns the
decoded characters and the input remaining after the closing quote.
Control characters below U+0020 are rejected (strict mode of
`json.loads`). -/
def parseStrBody : Nat → List Char → Option (List Char × List Char)
  | 0, _ => none
  | _, [] => none
  | fuel + 1, c :: cs =>
    if c = '"' then some ([], cs)
    else if c = '\\' then
      match cs with
      | [] => none
      | 'u' :: h1 :: h2 :: h3 :: h4 :: cs' =>
        match hexVal h1, hexVal h2, hexVal h3, hexVal h4 with
        | some a, some b, some d, some e =>
          match parseStrBody fuel cs' with
          | some (s, rest) => some (Char.ofNat (((a * 16 + b) * 16 + d) * 16 + e) :: s, rest)
          | none => none
        | _, _, _, _ => none
      | e :: cs' =>
        match escChar e with
        | some ch =>
          match parseStrBody fuel cs' with
          | some (s, rest) => some (ch :: s, rest)
          | none => none
        | none => none
    else if c.toNat < 0x20 then none
    else
      match parseStrBody fuel cs with
      | some (s, rest) => some (c :: s, rest)
      | none => none

/-- Numeric value of a digit run. -/
def digitsToNat (ds : List Char) : Nat :=
  ds.foldl (fun acc d => acc * 10 + (d.toNat - '0'.toNat)) 0

/-- Integer part of a JSON number, after the optional sign: either a
single `0` or a nonzero digit followed by digits (leading zeros are a
parse error in JSON). -/
def parseIntPart (s : List Char) : Option (List Char × List Char) :=
  match s with
  | '0' :: rest => some (['0'], rest)
  | c :: rest =>
    if '1' ≤ c ∧ c ≤ '9' then
      some (c :: rest.takeWhile Char.isDigit, rest.dropWhile Char.isDigit)
    else none
  | [] => none

/-- Fraction part: `.` followed by one or more digits, if present. -/
def parseFracPart (s : List Char) : List Char × List Char :=
  match s with
  | '.' :: rest =>
    match rest.takeWhile Char.isDigit with
    | [] => ([], s)
    | ds => (ds, rest.dropWhile Char.isDigit)
  | _ => ([], s)

/-- Exponent part: `e`/`E`, optional sign, one or more digits. -/
def parseExpPart (s : List Char) : Int × List Char :=
  match s with
  | e :: rest =>
    if e = 'e' ∨ e = 'E' then
      match rest with
      | '+' :: ds =>
        match ds.takeWhile Char.isDigit with
        | [] => (0, s)
        | run => ((digitsToNat run : Int), ds.dropWhile Char.isDigit)
      | '-' :: ds =>
        match ds.takeWhile Char.isDigit with
        | [] => (0, s)
        | run => (-(digitsToNat run : Int), ds.dropWhile Char.isDigit)
      | ds =>
        match ds.takeWhile Char.isDigit with
        | [] => (0, s)
        | run => ((digitsToNat run : Int), ds.dropWhile Char.isDigit)
    else (0, s)
  | [] => (0, s)

/-- Assemble the value `sign * intPart.fracPart * 10^exp` as a
canonical decimal. -/
def decOfParts (neg : Bool) (ip fp : List Char) (ex : Int) : Dec :=
  let mantissa : Int := (digitsToNat ip * 10 ^ fp.length + digitsToNat fp : Nat)
  let signed : Int := if neg then -mantissa else mantissa
  if 0 ≤ ex then Dec.norm (signed * pow10 ex.toNat) fp.length
  else Dec.norm signed (fp.length + (-ex).toNat)

/-- A JSON number token: optional `-`, integer part, optional fraction,
optional exponent. -/
def parseNum (s : List Char) : Option (Dec × List Char) :=
  let (neg, s1) := match s with
    | '-' :: rest => (true, rest)
    | _ => (false, s)
  match parseIntPart s1 with
  | none => none
  | some (ip, s2) =>
    let (fp, s3) := parseFracPart s2
    let (ex, s4) := parseExpPart s3
    some (decOfParts neg ip fp ex, s4)

/-- The three positions of the recursive JSON grammar: a value, the
elements of an array after `[`, the members of an object after `{`. -/
inductive PMode where
  | val : PMode
  | elems : PMode
  | members : PMode

/-- The recursive part of the JSON grammar, fueled (a single structural
recursion on the fuel so that the kernel can evaluate it; `parseJson`
always supplies enough fuel).  In mode `val`: leading whitespace, then
`true`/`false`/`null`, a string, an object, an array, or a number.  In
mode `elems`: comma-separated elements followed by `]`, returned as an
`arr`.  In mode `members`: comma-separated `"key": value` members
followed by `}`, returned as an `obj`. -/
def parseStep : Nat → PMode → List Char → Option (Json × List Char)
  | 0, _, _ => none
  | fuel + 1, .val, s =>
    let t := dropLeading isJsonWs s
    if pyStartsWith ['t', 'r', 'u', 'e'] t then some (.bool true, t.drop 4)
    else if pyStartsWith ['f', 'a', 'l', 's', 'e'] t then some (.bool false, t.drop 5)
    else if pyStartsWith ['n', 'u', 'l', 'l'] t then some (.null, t.drop 4)
    else
      match t with
      | '"' :: cs => (parseStrBody (cs.length + 1) cs).map (fun p => (.str p.1, p.2))
      | '{' :: cs =>
        match dropLeading isJsonWs cs with
        | '}' :: rest => some (.obj [], rest)
        | _ => parseStep fuel .members cs
      | '[' :: cs =>
        match dropLeading isJsonWs cs with
        | ']' :: rest => some (.arr [], rest)
        | _ => parseStep fuel .elems cs
      | _ => (parseNum t).map (fun p => (.num p.1, p.2))
  | fuel + 1, .elems, s =>
    match parseStep fuel .val s with
    | none => none
    | some (v, rest) =>
      match dropLeading isJsonWs rest with
      | ',' :: more =>
        match parseStep fuel .elems more with
        | some (.arr vs, fin) => some (.arr (v :: vs), fin)
        | _ => none
      | ']' :: fin => some (.arr [v], fin)
      | _ => none
  | fuel + 1, .members, s =>
    match dropLeading isJsonWs s with
    | '"' :: cs =>
      match parseStrBody (cs.length + 1) cs with
      | none => none
      | some (key, rest) =>
        match dropLeading isJsonWs rest with
        | ':' :: rest2 =>
          match parseStep fuel .val rest2 with
          | none => none
          | some (v, rest3) =>
            match dropLeading isJsonWs rest3 with
            | ',' :: more =>
              match parseStep fuel .members more with
              | some (.obj kvs, fin) => some (.obj ((key, v) :: kvs), fin)
              | _ => none
            | '}' :: fin => some (.obj [(key, v)], fin)
            | _ => none
        | _ => none
    | _ => none

/-- `json.loads`: strip surrounding whitespace, parse exactly one JSON
value, succeed only if nothing is left over.  (Equivalent to the Python
behaviour "skip leading whitespace, parse a value, allow only trailing
whitespace".)  The result depends only on `jsonStrip s`. -/
def parseJson (s : List Char) : Option Json :=
  let t := jsonStrip s
  match parseStep (t.length + 1) .val t with
  | some (v, []) => some v
  | _ => none

/-! ## Unfencing (`extract_topics` lines 296-300 / `score_quality`
lines 458-462) -/

/-- The markdown fence marker. -/
def fenceChars : List Char := ['`', '`', '`']

/-- The response clean-up both `extract_topics` and `score_quality`
perform before `json.loads`:
```
clean_response = response.strip()
if clean_response.startswith("```"):
    clean_response = clean_response.split("```")[1]
    if clean_response.startswith("json"):
        clean_response = clean_response[4:]
```
`split("```")[1]`, on a string that starts with the separator, is the
text between the first separator and the following one (or the whole
rest if there is no second separator). -/
def unfence (r : List Char) : List Char :=
  let clean := pyStrip r
  if pyStartsWith fenceChars clean then
    let c1 := upToSep fenceChars (clean.drop 3)
    if pyStartsWith ['j', 's', 'o', 'n'] c1 then c1.drop 4 else c1
  else clean

/-! ## Python runtime helpers on parsed values -/

/-- Exceptions that can escape the embedded methods (exceptions the
source catches are handled inside the definitions). -/
inductive PyErr where
  | attributeError : PyErr
  | typeError : PyErr
  | keyError : PyErr
  | indexError : PyErr
  deriving DecidableEq, Repr

/-- The two exceptions `float(...)` can raise; the source catches
`ValueError` but not `TypeError`. -/
inductive FloatErr where
  | valueError : FloatErr
  | typeError : FloatErr
  deriving DecidableEq, Repr

/-- Exponent suffix accepted by Python `float(...)` on a string: empty,
or `e`/`E`, optional sign, digits, consuming the whole rest. -/
def floatExpSuffix : List Char → Option Int
  | [] => some 0
  | e :: rest =>
    if e = 'e' ∨ e = 'E' then
      match rest with
      | '+' :: ds =>
        if ds ≠ [] ∧ ds.all Char.isDigit then some (digitsToNat ds : Nat) else none
      | '-' :: ds =>
        if ds ≠ [] ∧ ds.all Char.isDigit then some (-(digitsToNat ds : Nat) : Int) else none
      | ds =>
        if ds ≠ [] ∧ ds.all Char.isDigit then some (digitsToNat ds : Nat) else none
    else none

/-- Unsigned decimal accepted by Python `float(...)`: `d+`, `d+.d*` or
`.d+`, with an optional exponent. -/
def floatBody (s : List Char) : Option Dec :=
  let ip := s.takeWhile Char.isDigit
  let s1 := s.dropWhile Char.isDigit
  match s1 with
  | '.' :: rest =>
    let fp := rest.takeWhile Char.isDigit
    let s2 := rest.dropWhile Char.isDigit
    if ip = [] ∧ fp = [] then none
    else
      match floatExpSuffix s2 with
      | some ex => some (decOfParts false ip fp ex)
      | none => none
  | _ =>
    if ip = [] then none
    else
      match floatExpSuffix s1 with
      | some ex => some (decOfParts false ip [] ex)
      | none => none

/-- Python `float(s)` for a string argument: strip whitespace, optional
sign, decimal body.  (The non-finite literals `inf`/`nan` and digit
underscores are not modelled; no claim depends on them.)  `none` stands
for `ValueError`. -/
def pyFloatOfStr (s : List Char) : Option Dec :=
  match pyStrip s with
  | '-' :: rest => (floatBody rest).map Dec.neg
  | '+' :: rest => floatBody rest
  | t => floatBody t

/-- Python `float(x)` on a value parsed from JSON: numbers and booleans
convert, numeric strings parse (else `ValueError`), and `None`, lists
and dicts raise `TypeError`. -/
def pyFloat : Json → Except FloatErr Dec
  | .num q => .ok q
  | .bool b => .ok (if b then 1 else 0)
  | .str s =>
    match pyFloatOfStr s with
    | some q => .ok q
    | none => .error .valueError
  | .null => .error .typeError
  | .arr _ => .error .typeError
  | .obj _ => .error .typeError

/-- Python truthiness of a value parsed from JSON. -/
def pyTruthy : Json → Bool
  | .null => false
  | .bool b => b
  | .num q => q.m ≠ 0
  | .str s => !s.isEmpty
  | .arr xs => !xs.isEmpty
  | .obj kvs => !kvs.isEmpty

/-- Python `x[0]` on a value parsed from JSON: strings yield their first
character as a one-character string, lists their first element; an empty
string or list raises `IndexError`, a dict raises `KeyError` (JSON keys
are strings, so the integer key `0` is never present), and the
remaining values raise `TypeError`. -/
def pyIndex0 : Json → Except PyErr Json
  | .str (c :: _) => .ok (.str [c])
  | .str [] => .error .indexError
  | .arr (x :: _) => .ok x
  | .arr [] => .error .indexError
  | .obj _ => .error .keyError
  | _ => .error .typeError

/-! ## Data model (`ArticleFormat`, `TopicAnalysis`, `Article`,
`GenerationResult`) -/

/-- `class ArticleFormat(Enum)`. -/
inductive ArticleFormat where
  | blog_post : ArticleFormat
  | faq : ArticleFormat
  | listicle : ArticleFormat
  | summary : ArticleFormat
  | social : ArticleFormat
  deriving DecidableEq, Repr

/-- The `.value` attribute of each enum member. -/
def ArticleFormat.value : ArticleFormat → String
  | .blog_post => "blog"
  | .faq => "faq"
  | .listicle => "listicle"
  | .summary => "summary"
  | .social => "social"

/-- `list(ArticleFormat)`: the default format list. -/
def allFormats : List ArticleFormat :=
  [.blog_post, .faq, .listicle, .summary, .social]

/-- `@dataclass TopicAnalysis`.  The fields hold whatever values
`data.get(key, [])` produced — Python does not enforce the `list[str]`
hints, so a parsed JSON object can put any JSON value in them; the
fields are therefore embedded as `Json`. -/
structure TopicAnalysis where
  main_topics : Json
  key_insights : Json
  notable_quotes : Json
  suggested_titles : Json

/-- `@dataclass Article` after `__post_init__` has run. -/
structure Article where
  title : Json
  format : ArticleFormat
  content : List Char
  topics : Json
  word_count : Int
  quality_score : Dec

/-- Constructing an `Article(...)`: dataclass `__init__` (with defaults
`topics=[]`, `word_count=0`, `quality_score=0.0`) followed by
`__post_init__`, which recomputes `word_count` as
`len(self.content.split())` exactly when the constructed value is 0. -/
def Article.make (title : Json) (format : ArticleFormat) (content : List Char)
    (topics : Json) (word_count : Int) (quality_score : Dec) : Article :=
  { title := title
    format := format
    content := content
    topics := topics
    word_count := if word_count = 0 then ((pySplitWs content).length : Int) else word_count
    quality_score := quality_score }

/-- `@dataclass GenerationResult`.  `generation_time` is wall-clock time
measured from the environment; it is embedded as 0 (no claim depends on
its value). -/
structure GenerationResult where
  source_text : List Char
  topic_analysis : TopicAnalysis
  articles : List Article
  generation_time : Dec

/-- One progress report: the `(int, str)` pair passed to the
`on_progress` callback. -/
abbrev Event := Nat × String

/-! ## `ArticleGenerator.extract_topics` (lines 262-318) -/

/-- `data.get(key, [])` on the dict parsed from the response. -/
def jsonGetList (kvs : List (List Char × Json)) (key : List Char) : Json :=
  (lookupLast key kvs).getD (Json.arr [])

/-- The fixed fallback `TopicAnalysis` returned on an absent response or
a parse failure (lines 313-318). -/
def fallbackTopics : TopicAnalysis :=
  { main_topics := .arr [.str "General Discussion".toList]
    key_insights := .arr [.str "Content analysis unavailable".toList]
    notable_quotes := .arr []
    suggested_titles := .arr [.str "Untitled Article".toList] }

/-- `extract_topics(text, on_progress)`.  `resp` is what
`lm_client.chat_completion` returns for the extraction prompt (`none` =
absent; the prompt itself only feeds the external service, so the result
depends on the response alone).  Returns the reported progress events
and either the `TopicAnalysis` or the escaping exception.

Control flow of the source: report 10; call the service; report 30;
`if response:` (an absent or empty response falls through to the
fallback); unfence and `json.loads` inside `try` —
`json.JSONDecodeError` is caught and falls through to the fallback, but
`data.get(...)` on a parsed non-dict value raises an uncaught
`AttributeError`. -/
def extract_topics (resp : Option (List Char)) :
    List Event × Except PyErr TopicAnalysis :=
  let evs : List Event :=
    [(10, "Extracting topics..."), (30, "Parsing topic analysis...")]
  match resp with
  | none => (evs, .ok fallbackTopics)
  | some r =>
    if r.isEmpty then (evs, .ok fallbackTopics)
    else
      match parseJson (unfence r) with
      | none => (evs, .ok fallbackTopics)
      | some (.obj kvs) =>
        (evs, .ok
          { main_topics := jsonGetList kvs "topics".toList
            key_insights := jsonGetList kvs "insights".toList
            notable_quotes := jsonGetList kvs "quotes".toList
            suggested_titles := jsonGetList kvs "titles".toList })
      | some _ => (evs, .error .attributeError)

/-! ## `ArticleGenerator.score_quality` (lines 439-471) -/

/-- `score_quality(article)`.  `resp` is the service response for the
scoring prompt.  Returns the value the call returns (or the escaping
exception) together with the article as it is after the call —
`article.quality_score = float(score)` mutates it on the success path
only.

Control flow of the source: `if response:` (absent/empty falls to
`return 5.0`); inside `try` unfence, `json.loads`
(`JSONDecodeError` caught → 5.0), `data.get("overall", 5.0)`
(`AttributeError` on a non-dict is uncaught), then `float(score)`
(`ValueError` caught → 5.0; `TypeError` is uncaught). -/
def score_quality (article : Article) (resp : Option (List Char)) :
    Except PyErr Dec × Article :=
  match resp with
  | none => (.ok 5, article)
  | some r =>
    if r.isEmpty then (.ok 5, article)
    else
      match parseJson (unfence r) with
      | none => (.ok 5, article)
      | some (.obj kvs) =>
        let score := (lookupLast "overall".toList kvs).getD (Json.num 5)
        match pyFloat score with
        | .ok q => (.ok q, { article with quality_score := q })
        | .error .valueError => (.ok 5, article)
        | .error .typeError => (.error .typeError, article)
      | some _ => (.error .attributeError, article)

/-! ## `ArticleGenerator._extract_title` (lines 513-528) -/

/-- The first of the first 5 lines of the stripped content that, after
stripping, starts with `"# "` but not `"## "`; returns that line with
the marker removed and stripped. -/
def findHeading : List (List Char) → Option (List Char)
  | [] => none
  | l :: ls =>
    let l' := pyStrip l
    if pyStartsWith ['#', ' '] l' ∧ ¬ pyStartsWith ['#', '#', ' '] l' then
      some (pyStrip (l'.drop 2))
    else findHeading ls

/-- `_extract_title(content, topics)`: heading from the content, else
`topics.suggested_titles[0]` when that field is truthy, else
`topics.main_topics[0]` when truthy, else `"Untitled Article"`.  The
fallback indexing can raise when a parsed non-list landed in the field
(Python type hints are not enforced). -/
def extract_title (content : List Char) (topics : TopicAnalysis) :
    Except PyErr Json :=
  match findHeading ((splitChar '\n' (pyStrip content)).take 5) with
  | some t => .ok (.str t)
  | none =>
    if pyTruthy topics.suggested_titles then pyIndex0 topics.suggested_titles
    else if pyTruthy topics.main_topics then pyIndex0 topics.main_topics
    else .ok (.str "Untitled Article".toList)

/-! ## `ArticleGenerator._get_format_prompt` (lines 473-511) -/

/-- `", ".join(x)`: succeeds when `x` is a string (joining its
characters), a list of strings, or a dict (joining its keys, which are
strings for values parsed from JSON); raises `TypeError` otherwise.
Only success or failure is observable downstream — the prompt text
itself feeds the external service, whose response is a parameter. -/
def pyJoinStrs : Json → Except PyErr Unit
  | .str _ => .ok ()
  | .obj _ => .ok ()
  | .arr xs => if xs.all (fun x => match x with | .str _ => true | _ => false)
      then .ok () else .error .typeError
  | _ => .error .typeError

/-- `"\n".join(f"..{i}.." for i in x)`: the f-string renders any value,
so this succeeds exactly when `x` is iterable (string, list or dict) and
raises `TypeError` otherwise. -/
def pyIterOk : Json → Except PyErr Unit
  | .str _ => .ok ()
  | .arr _ => .ok ()
  | .obj _ => .ok ()
  | _ => .error .typeError

/-- The exception behaviour of `_get_format_prompt`: text truncation and
template interpolation cannot fail, but the joins over the topic fields
can raise `TypeError` when a parsed non-list landed in a field.  Per
format (in the evaluation order of the keyword arguments):
blog joins `main_topics` then iterates `key_insights`; listicle joins
`main_topics`; social iterates `key_insights` then `notable_quotes`;
faq and summary never touch the topic fields.  (The prompt string
itself is not embedded: no claim references its text, and the service
response is an independent parameter.) -/
def format_prompt_check (fmt : ArticleFormat) (topics : TopicAnalysis) :
    Except PyErr Unit :=
  match fmt with
  | .blog_post => do
    pyJoinStrs topics.main_topics
    pyIterOk topics.key_insights
  | .faq => .ok ()
  | .listicle => pyJoinStrs topics.main_topics
  | .summary => .ok ()
  | .social => do
    pyIterOk topics.key_insights
    pyIterOk topics.notable_quotes

/-! ## `ArticleGenerator.generate_article` (lines 320-382) -/

/-- The content of the sentinel failure `Article` (lines 358-364). -/
def sentinelContent : List Char :=
  "Unable to generate article. Please check LM Studio connection.".toList

/-- The title of the sentinel failure `Article`. -/
def sentinelTitle : Json := .str "Generation Failed".toList

set_option linter.unusedVariables false in
/-- `generate_article(text, format, topics, on_progress)`.  `text` only
feeds the prompts sent to the external service, whose responses are the
parameters below.  `topicResp`
is the service response `extract_topics` would receive when it is
invoked (only when `topics? = none`); `genResp` is the response for the
generation prompt.  Returns the progress events reported through
`on_progress` (in order) and the produced `Article` or the escaping
exception.

Control flow of the source: report 0; extract topics when none were
supplied; build the prompt (the joins can raise); report 40; call the
service; `if not response:` return the sentinel failure article
(reports 90/100 are skipped); `_extract_title` (can raise); report 90;
construct the `Article`; report 100. -/
def generate_article (text : List Char) (fmt : ArticleFormat)
    (topics? : Option TopicAnalysis)
    (topicResp genResp : Option (List Char)) :
    List Event × Except PyErr Article :=
  let ev0 : Event := (0, "Generating " ++ fmt.value ++ " article...")
  let extraction : List Event × Except PyErr TopicAnalysis :=
    match topics? with
    | some t => ([], .ok t)
    | none => extract_topics topicResp
  match extraction with
  | (evT, .error e) => (ev0 :: evT, .error e)
  | (evT, .ok topics) =>
    match format_prompt_check fmt topics with
    | .error e => (ev0 :: evT, .error e)
    | .ok _ =>
      let ev40 : Event := (40, "Writing " ++ fmt.value ++ " content...")
      let sentinel :=
        Article.make sentinelTitle fmt sentinelContent topics.main_topics 0 0
      match genResp with
      | none => (ev0 :: evT ++ [ev40], .ok sentinel)
      | some r =>
        if r.isEmpty then (ev0 :: evT ++ [ev40], .ok sentinel)
        else
          match extract_title r topics with
          | .error e => (ev0 :: evT ++ [ev40], .error e)
          | .ok title =>
            let article := Article.make title fmt r topics.main_topics 0 0
            (ev0 :: evT ++ [ev40, (90, "Finalizing article..."),
              (100, "Article complete")], .ok article)

/-! ## `ArticleGenerator.generate_all_formats` (lines 384-437) -/

/-- The rescaling the `format_progress` closure applies to an inner
report `p` of slice `i` out of `total` (lines 417 and 421):
`base_progress = 30 + int(60 * i / total)` and
`actual = base_progress + int(pct * 0.6 / total)`, in exact arithmetic
(`/` is natural floor division; `int(pct * 0.6 / total)` equals
`6 * pct / (10 * total)` for every reachable `pct`). -/
def rescale (total i p : Nat) : Nat :=
  30 + 60 * i / total + 6 * p / (10 * total)

/-- The `for i, fmt in enumerate(formats)` loop of
`generate_all_formats`, started at index `i`: each format generates an
article with the shared `TopicAnalysis`, and every inner progress report
is rescaled into that format's slice.  `genResps` gives the service's
response for the slice at each index. -/
def gen_loop (text : List Char) (ta : TopicAnalysis)
    (genResps : Nat → Option (List Char))
    (total : Nat) : List ArticleFormat → Nat →
    List Event × Except PyErr (List Article)
  | [], _ => ([], .ok [])
  | fmt :: rest, i =>
    let inner := generate_article text fmt (some ta) none (genResps i)
    let evs := inner.1.map (fun pm => (rescale total i pm.1, pm.2))
    match inner.2 with
    | .error e => (evs, .error e)
    | .ok a =>
      let tail := gen_loop text ta genResps total rest (i + 1)
      (evs ++ tail.1, tail.2.map (fun l => a :: l))

/-- `generate_all_formats(text, formats, on_progress)`.  `formats?` is
the `formats` argument (`None` defaults to `list(ArticleFormat)`);
`topicResp` is the service response for the topic-extraction prompt and
`genResps i` the response for the i-th format's generation prompt.
Returns all progress events and the `GenerationResult` or the escaping
exception.

Control flow of the source: default the format list; report 0; extract
topics once (its reports 10/30 pass through unrescaled); run the slice
loop; report 100; assemble the result (wall-clock `generation_time`
embedded as 0). -/
def generate_all_formats (text : List Char)
    (formats? : Option (List ArticleFormat))
    (topicResp : Option (List Char)) (genResps : Nat → Option (List Char)) :
    List Event × Except PyErr GenerationResult :=
  let formats := formats?.getD allFormats
  let ev0 : Event := (0, "Starting article generation...")
  match extract_topics topicResp with
  | (evT, .error e) => (ev0 :: evT, .error e)
  | (evT, .ok ta) =>
    let loop := gen_loop text ta genResps formats.length formats 0
    match loop.2 with
    | .error e => (ev0 :: evT ++ loop.1, .error e)
    | .ok arts =>
      let evF : Event := (100, "Generated " ++ toString arts.length ++ " articles")
      (ev0 :: evT ++ loop.1 ++ [evF],
        .ok { source_text := text, topic_analysis := ta, articles := arts,
              generation_time := 0 })

/-! ## Shared helper lemmas -/

/-- `Json.isObj`: discriminator for object values. -/
def Json.isObj : Json → Bool
  | .obj _ => true
  | _ => false

/-- The dict lookup `data.get("overall", 5.0)` performed by
`score_quality` on the parsed object. -/
def overallScore (kvs : List (List Char × Json)) : Json :=
  (lookupLast "overall".toList kvs).getD (Json.num 5)

theorem extract_topics_events (resp : Option (List Char)) :
    (extract_topics resp).1 =
      [(10, "Extracting topics..."), (30, "Parsing topic analysis...")] := by
  match resp with
  | none => rfl
  | some r =>
    simp only [extract_topics]
    split
    · rfl
    · split <;> rfl

/-- A concrete article reused as input in several witnesses. -/
def sampleArticle : Article :=
  Article.make (.str "T".toList) .summary "hello world".toList (.arr []) 0 0

/-! ## C5 — `Article` word count -/

/-- C5 as stated is false on the code: `__post_init__` recomputes
`word_count` only when the constructed value is 0, so a nonzero
`word_count` passed to the constructor is kept.  Here an `Article` with
content `"one two three"` (3 whitespace tokens) constructed with
`word_count=7` keeps `word_count = 7`. -/
theorem C5_counterexample :
    (Article.make (.str "T".toList) .blog_post "one two three".toList
        (.arr []) 7 0).word_count = 7 ∧
    ((pySplitWs "one two three".toList).length : Int) = 3 ∧ (7 : Int) ≠ 3 :=
  ⟨rfl, by decide, by decide⟩

/-- C5 (amended): an `Article` constructed with the default
`word_count` (0) gets `word_count` recomputed as the whitespace-token
count of its content; a nonzero constructor-supplied `word_count` is
kept as passed. -/
theorem C5_word_count (title : Json) (fmt : ArticleFormat) (content : List Char)
    (topics : Json) (q : Dec) (wc : Int) :
    (Article.make title fmt content topics 0 q).word_count =
      ((pySplitWs content).length : Int) ∧
    (wc ≠ 0 → (Article.make title fmt content topics wc q).word_count = wc) := by
  constructor
  · simp [Article.make]
  · intro h
    simp [Article.make, h]

/-- C5 witness: the amended theorem evaluated at concrete inputs. -/
theorem C5_word_count_witness :
    (Article.make (.str "T".toList) .blog_post "one two three".toList
        (.arr []) 0 0).word_count = 3 ∧
    (Article.make (.str "T".toList) .blog_post "one two three".toList
        (.arr []) 7 0).word_count = 7 := by
  have h := C5_word_count (.str "T".toList) .blog_post "one two three".toList
    (.arr []) 0 7
  exact ⟨by rw [h.1]; decide, h.2 (by decide)⟩

/-! ## C7 — fallback behaviour under a totally absent service -/

/-- C7: when the service channel returns absent, `extract_topics`
returns exactly the fallback `TopicAnalysis` — topics
`["General Discussion"]`, insights `["Content analysis unavailable"]`,
quotes `[]`, titles `["Untitled Article"]` — and `score_quality` of any
article returns exactly 5.0 (leaving the article unchanged). -/
theorem C7_absent_fallback (a : Article) :
    (extract_topics none).2 = .ok fallbackTopics ∧
    fallbackTopics.main_topics = .arr [.str "General Discussion".toList] ∧
    fallbackTopics.key_insights = .arr [.str "Content analysis unavailable".toList] ∧
    fallbackTopics.notable_quotes = .arr [] ∧
    fallbackTopics.suggested_titles = .arr [.str "Untitled Article".toList] ∧
    score_quality a none = (.ok 5, a) :=
  ⟨rfl, rfl, rfl, rfl, rfl, rfl⟩

/-! ## C2 — totality of `extract_topics` -/

/-- C2 as stated is false on the code: a response that parses to a JSON
value that is not an object — here the parseable JSON array
`"[1, 2, 3]"` — makes `data.get(...)` raise an uncaught
`AttributeError` that crosses the `extract_topics` boundary. -/
theorem C2_counterexample :
    (extract_topics (some "[1, 2, 3]".toList)).2 = .error .attributeError :=
  rfl

/-- C2 (amended): for a response that is absent, unparseable, or parses
to a JSON *object*, `extract_topics` returns a `TopicAnalysis` (all four
fields structurally present, defaulting to `[]`) and raises nothing; a
response parsing to a non-object JSON value instead raises
`AttributeError`. -/
theorem C2_extract_topics_total (resp : Option (List Char))
    (h : resp = none ∨ (∃ r, resp = some r ∧ parseJson (unfence r) = none) ∨
      (∃ r kvs, resp = some r ∧ parseJson (unfence r) = some (.obj kvs))) :
    ∃ ta, (extract_topics resp).2 = .ok ta := by
  rcases h with rfl | ⟨r, rfl, hr⟩ | ⟨r, kvs, rfl, hr⟩
  · exact ⟨fallbackTopics, rfl⟩
  · by_cases he : r.isEmpty
    · exact ⟨fallbackTopics, by simp [extract_topics, he]⟩
    · exact ⟨fallbackTopics, by simp [extract_topics, he, hr]⟩
  · by_cases he : r.isEmpty
    · exact ⟨fallbackTopics, by simp [extract_topics, he]⟩
    · refine ⟨{ main_topics := jsonGetList kvs "topics".toList
                key_insights := jsonGetList kvs "insights".toList
                notable_quotes := jsonGetList kvs "quotes".toList
                suggested_titles := jsonGetList kvs "titles".toList }, ?_⟩
      simp [extract_topics, he, hr]

/-- C2 witness: the amended theorem applied to the absent response. -/
theorem C2_extract_topics_total_witness :
    ∃ ta, (extract_topics none).2 = .ok ta :=
  C2_extract_topics_total none (Or.inl rfl)

/-! ## C3 — `score_quality` return value -/

/-- C3 as stated is false on the code: the failure "non-numeric value"
does not always yield 5.0 — a response whose `"overall"` field is JSON
`null` makes `float(None)` raise `TypeError`, which the `except` clause
(`json.JSONDecodeError`, `ValueError`) does not catch, so the exception
escapes to the caller. -/
theorem C3_counterexample :
    (score_quality sampleArticle (some "\x7b\"overall\": null\x7d".toList)).1 =
      .error .typeError :=
  rfl

/-- C3 (amended): `score_quality` returns the `"overall"` field
converted by `float` when the response parses to an object and the
conversion succeeds (5.0 when the key is missing, via the `get`
default); it returns exactly 5.0 on an absent response, a JSON parse
failure, or an `"overall"` value whose `float` conversion raises
`ValueError` (a non-numeric string).  But a response parsing to a
non-object JSON value raises `AttributeError`, and an `"overall"` value
of `null` or a nested list/object raises `TypeError`; neither is turned
into 5.0. -/
theorem C3_score_quality (a : Article) (resp : Option (List Char)) :
    (resp = none → (score_quality a resp).1 = .ok 5) ∧
    (∀ r, resp = some r → parseJson (unfence r) = none →
      (score_quality a resp).1 = .ok 5) ∧
    (∀ r kvs q, resp = some r → parseJson (unfence r) = some (.obj kvs) →
      pyFloat (overallScore kvs) = .ok q →
      (score_quality a resp).1 = .ok q) ∧
    (∀ r kvs, resp = some r → parseJson (unfence r) = some (.obj kvs) →
      pyFloat (overallScore kvs) = .error .valueError →
      (score_quality a resp).1 = .ok 5) ∧
    (∀ r kvs, resp = some r → parseJson (unfence r) = some (.obj kvs) →
      pyFloat (overallScore kvs) = .error .typeError →
      (score_quality a resp).1 = .error .typeError) ∧
    (∀ r v, resp = some r → parseJson (unfence r) = some v → v.isObj = false →
      (score_quality a resp).1 = .error .attributeError) := by
  refine ⟨?_, ?_, ?_, ?_, ?_, ?_⟩
  · rintro rfl
    rfl
  · rintro r rfl hr
    by_cases he : r.isEmpty
    · simp [score_quality, he]
    · simp [score_quality, he, hr]
  · rintro r kvs q rfl hr hq
    have he : r.isEmpty = false := by
      rcases r with _ | ⟨c, cs⟩
      · rw [show parseJson (unfence ([] : List Char)) = none from rfl] at hr
        cases hr
      · rfl
    simp [score_quality, he, hr, overallScore] at hq ⊢
    rw [hq]
  · rintro r kvs rfl hr hq
    have he : r.isEmpty = false := by
      rcases r with _ | ⟨c, cs⟩
      · rw [show parseJson (unfence ([] : List Char)) = none from rfl] at hr
        cases hr
      · rfl
    simp [score_quality, he, hr, overallScore] at hq ⊢
    rw [hq]
  · rintro r kvs rfl hr hq
    have he : r.isEmpty = false := by
      rcases r with _ | ⟨c, cs⟩
      · rw [show parseJson (unfence ([] : List Char)) = none from rfl] at hr
        cases hr
      · rfl
    simp [score_quality, he, hr, overallScore] at hq ⊢
    rw [hq]
  · rintro r v rfl hr hv
    have he : r.isEmpty = false := by
      rcases r with _ | ⟨c, cs⟩
      · rw [show parseJson (unfence ([] : List Char)) = none from rfl] at hr
        cases hr
      · rfl
    rcases v with _ | _ | _ | _ | _ | kvs
    · simp [score_quality, he, hr]
    · simp [score_quality, he, hr]
    · simp [score_quality, he, hr]
    · simp [score_quality, he, hr]
    · simp [score_quality, he, hr]
    · simp [Json.isObj] at hv

/-- C3 witness: the amended theorem applied to a response whose
`"overall"` field is the number 7. -/
theorem C3_score_quality_witness :
    (score_quality sampleArticle (some "\x7b\"overall\": 7\x7d".toList)).1 = .ok 7 :=
  (C3_score_quality sampleArticle
      (some "\x7b\"overall\": 7\x7d".toList)).2.2.1
    "\x7b\"overall\": 7\x7d".toList [("overall".toList, .num 7)] 7 rfl rfl rfl

/-! ## C9 — `score_quality` mutates only on the success path -/

theorem isEmpty_false_of_parse (r : List Char) (v : Json)
    (hr : parseJson (unfence r) = some v) : r.isEmpty = false := by
  rcases r with _ | ⟨c, cs⟩
  · rw [show parseJson (unfence ([] : List Char)) = none from rfl] at hr
    cases hr
  · rfl

theorem score_quality_of_obj (a : Article) (r : List Char)
    (kvs : List (List Char × Json)) (he : r.isEmpty = false)
    (hp : parseJson (unfence r) = some (.obj kvs)) :
    score_quality a (some r) =
      match pyFloat (overallScore kvs) with
      | .ok q => (.ok q, { a with quality_score := q })
      | .error .valueError => (.ok 5, a)
      | .error .typeError => (.error .typeError, a) := by
  simp [score_quality, he, hp, overallScore]

theorem score_quality_of_nonobj (a : Article) (r : List Char) (v : Json)
    (he : r.isEmpty = false) (hp : parseJson (unfence r) = some v)
    (hv : v.isObj = false) :
    score_quality a (some r) = (.error .attributeError, a) := by
  rcases v with _ | _ | _ | _ | _ | kvs
  · simp [score_quality, he, hp]
  · simp [score_quality, he, hp]
  · simp [score_quality, he, hp]
  · simp [score_quality, he, hp]
  · simp [score_quality, he, hp]
  · simp [Json.isObj] at hv

theorem score_quality_of_fail (a : Article) (r : List Char)
    (hp : r.isEmpty = true ∨ parseJson (unfence r) = none) :
    score_quality a (some r) = (.ok 5, a) := by
  by_cases he : r.isEmpty
  · simp [score_quality, he]
  · rcases hp with hp | hp
    · exact absurd hp he
    · simp [score_quality, he, hp]

/-- C9: on every failure path of `score_quality` — absent response, JSON
parse failure, response parsing to a non-object, or an `"overall"` value
whose `float` conversion raises (`ValueError` or `TypeError`) — the
article is left unchanged, so `article.quality_score` keeps its prior
value; conversely, whenever the article is changed, the call took the
success path: it returned `.ok q` and the only change is
`quality_score := q`. -/
theorem C9_frame (a : Article) (resp : Option (List Char)) :
    ((resp = none ∨
      (∃ r, resp = some r ∧ parseJson (unfence r) = none) ∨
      (∃ r v, resp = some r ∧ parseJson (unfence r) = some v ∧ v.isObj = false) ∨
      (∃ r kvs e, resp = some r ∧ parseJson (unfence r) = some (.obj kvs) ∧
        pyFloat (overallScore kvs) = .error e)) →
      (score_quality a resp).2 = a) ∧
    ((score_quality a resp).2 ≠ a →
      ∃ q, (score_quality a resp).1 = .ok q ∧
        (score_quality a resp).2 = { a with quality_score := q }) := by
  constructor
  · rintro (rfl | ⟨r, rfl, hr⟩ | ⟨r, v, rfl, hr, hv⟩ | ⟨r, kvs, e, rfl, hr, hq⟩)
    · rfl
    · rw [score_quality_of_fail a r (Or.inr hr)]
    · rw [score_quality_of_nonobj a r v (isEmpty_false_of_parse r v hr) hr hv]
    · rw [score_quality_of_obj a r kvs
        (isEmpty_false_of_parse r (.obj kvs) hr) hr, hq]
      cases e <;> rfl
  · intro hmut
    rcases resp with _ | r
    · exact absurd rfl hmut
    · by_cases he : r.isEmpty
      · exact absurd (by rw [score_quality_of_fail a r (Or.inl he)]) hmut
      · rcases hp : parseJson (unfence r) with _ | v
        · exact absurd (by rw [score_quality_of_fail a r (Or.inr hp)]) hmut
        · rcases v with _ | _ | _ | _ | _ | kvs
          · exact absurd
              (by rw [score_quality_of_nonobj a r _ (eq_false_of_ne_true he) hp rfl])
              hmut
          · exact absurd
              (by rw [score_quality_of_nonobj a r _ (eq_false_of_ne_true he) hp rfl])
              hmut
          · exact absurd
              (by rw [score_quality_of_nonobj a r _ (eq_false_of_ne_true he) hp rfl])
              hmut
          · exact absurd
              (by rw [score_quality_of_nonobj a r _ (eq_false_of_ne_true he) hp rfl])
              hmut
          · exact absurd
              (by rw [score_quality_of_nonobj a r _ (eq_false_of_ne_true he) hp rfl])
              hmut
          · rcases hq : pyFloat (overallScore kvs) with e | q
            · exact absurd
                (by rw [score_quality_of_obj a r kvs (eq_false_of_ne_true he) hp, hq]
                    cases e <;> rfl)
                hmut
            · refine ⟨q, ?_, ?_⟩
              · rw [score_quality_of_obj a r kvs (eq_false_of_ne_true he) hp, hq]
              · rw [score_quality_of_obj a r kvs (eq_false_of_ne_true he) hp, hq]

/-- C9 witness: the theorem applied to the absent response and to a
parse failure, at a concrete article. -/
theorem C9_frame_witness :
    (score_quality sampleArticle none).2 = sampleArticle ∧
    (score_quality sampleArticle (some "not json".toList)).2 = sampleArticle :=
  ⟨(C9_frame sampleArticle none).1 (Or.inl rfl),
   (C9_frame sampleArticle (some "not json".toList)).1
     (Or.inr (Or.inl ⟨"not json".toList, rfl, rfl⟩))⟩

/-! ## C6 — sentinel failure article on an absent generation response -/

/-- C6: when the service returns absent for the generation prompt (and
the prompt construction itself does not raise), `generate_article`
returns — without raising — the sentinel failure `Article`: title
`"Generation Failed"`, the fixed explanatory content (which is all it
carries — none of it comes from the service; its derived word count is
the 9 tokens of that fixed text), and the topic snapshot of the supplied
analysis, so the caller can detect the failure by inspecting title or
content. -/
theorem C6_sentinel (text : List Char) (fmt : ArticleFormat)
    (ta : TopicAnalysis) (tr : Option (List Char))
    (hp : format_prompt_check fmt ta = .ok ()) :
    (generate_article text fmt (some ta) tr none).2 =
      .ok (Article.make sentinelTitle fmt sentinelContent ta.main_topics 0 0) ∧
    sentinelTitle = .str "Generation Failed".toList ∧
    sentinelContent =
      "Unable to generate article. Please check LM Studio connection.".toList ∧
    (Article.make sentinelTitle fmt sentinelContent ta.main_topics 0 0).word_count
      = 9 := by
  refine ⟨?_, rfl, rfl, rfl⟩
  simp [generate_article, hp]

/-- C6 witness: the theorem at a concrete format and the fallback
topics. -/
theorem C6_sentinel_witness :
    (generate_article "t".toList .faq (some fallbackTopics) none none).2 =
      .ok (Article.make sentinelTitle .faq sentinelContent
        fallbackTopics.main_topics 0 0) :=
  (C6_sentinel "t".toList .faq fallbackTopics none rfl).1

/-! ## C10 — explicitly empty formats list -/

/-- C10: with an explicitly empty `formats` list (which is not `None`,
so it is not defaulted), `generate_all_formats` completes without error:
the slice loop body — the only place the division by `total_formats`
occurs — is never executed, the result carries an empty `articles` list
and the extracted `TopicAnalysis`, and the reported progress is
0, 10, 30 and finally exactly 100.  (Stated for every topic-extraction
response for which the extraction itself returns instead of raising;
the raising case is claim C2's corrected behaviour.) -/
theorem C10_empty_formats (text : List Char) (tr : Option (List Char))
    (gr : Nat → Option (List Char)) (ta : TopicAnalysis)
    (h : (extract_topics tr).2 = .ok ta) :
    generate_all_formats text (some []) tr gr =
      ([(0, "Starting article generation..."),
        (10, "Extracting topics..."), (30, "Parsing topic analysis..."),
        (100, "Generated 0 articles")],
       .ok { source_text := text, topic_analysis := ta, articles := [],
             generation_time := 0 }) := by
  rcases hx : extract_topics tr with ⟨evs, res⟩
  have hev : evs = [(10, "Extracting topics..."), (30, "Parsing topic analysis...")] := by
    have := extract_topics_events tr
    rw [hx] at this
    exact this
  rw [hx] at h
  simp only at h
  subst h
  subst hev
  simp only [generate_all_formats]
  rw [hx]
  rfl

/-- C10 witness: the theorem for the absent topic response. -/
theorem C10_empty_formats_witness :
    generate_all_formats "x".toList (some []) none (fun _ => none) =
      ([(0, "Starting article generation..."),
        (10, "Extracting topics..."), (30, "Parsing topic analysis..."),
        (100, "Generated 0 articles")],
       .ok { source_text := "x".toList, topic_analysis := fallbackTopics,
             articles := [], generation_time := 0 }) :=
  C10_empty_formats "x".toList none (fun _ => none) fallbackTopics rfl

/-! ## C4 — `generate_article` milestone sequence -/

/-- The milestone sequences a completing `generate_article` call with
pre-supplied topics can report: `0, 40` when the service response is
absent or empty (the early sentinel return skips the 90/100 reports),
and `0, 40, 90, 100` when a response arrives.  Shared by C4 and C1. -/
theorem generate_article_pcts (text : List Char) (fmt : ArticleFormat)
    (ta : TopicAnalysis) (tr gr : Option (List Char)) (a : Article)
    (hok : (generate_article text fmt (some ta) tr gr).2 = .ok a) :
    ((gr = none ∨ gr = some []) →
      (generate_article text fmt (some ta) tr gr).1.map Prod.fst = [0, 40]) ∧
    (∀ r, gr = some r → r.isEmpty = false →
      (generate_article text fmt (some ta) tr gr).1.map Prod.fst
        = [0, 40, 90, 100]) := by
  rcases hfp : format_prompt_check fmt ta with e | u
  · rw [show (generate_article text fmt (some ta) tr gr).2 = .error e from by
      simp [generate_article, hfp]] at hok
    cases hok
  · cases u
    constructor
    · rintro (rfl | rfl)
      · simp [generate_article, hfp]
      · simp [generate_article, hfp]
    · rintro r rfl hre
      rcases ht : extract_title r ta with e2 | t
      · rw [show (generate_article text fmt (some ta) tr (some r)).2
            = .error e2 from by simp [generate_article, hfp, hre, ht]] at hok
        cases hok
      · simp [generate_article, hfp, hre, ht]

/-- C4 as stated is false on the code: in the local-fallback case (the
service returns absent) the call completes — it returns the sentinel
article — but the early return skips the 90 and 100 milestones, so the
reported sequence is `0, 40` and the final reported percentage is 40,
not 100. -/
theorem C4_counterexample :
    (generate_article "t".toList .faq (some fallbackTopics) none none).1.map
        Prod.fst = [0, 40] ∧
    ((generate_article "t".toList .faq (some fallbackTopics) none
        none).1.map Prod.fst).getLast? = some 40 ∧
    (generate_article "t".toList .faq (some fallbackTopics) none none).2 =
      .ok (Article.make sentinelTitle .faq sentinelContent
        fallbackTopics.main_topics 0 0) ∧
    (40 : Nat) ≠ 100 :=
  ⟨rfl, rfl, rfl, by decide⟩

/-- C4 (amended): for every completing `generate_article` call with a
progress callback and pre-supplied topics, the reported milestone
sequence is `0, 40, 90, 100` (final report 100) when the service
returns a (non-empty) response; in the local-fallback case — absent or
empty response — the call still completes but reports only `0, 40`,
ending at 40. -/
theorem C4_milestones (text : List Char) (fmt : ArticleFormat)
    (ta : TopicAnalysis) (tr gr : Option (List Char)) (a : Article)
    (hok : (generate_article text fmt (some ta) tr gr).2 = .ok a) :
    ((gr = none ∨ gr = some []) →
      (generate_article text fmt (some ta) tr gr).1.map Prod.fst = [0, 40]) ∧
    (∀ r, gr = some r → r.isEmpty = false →
      (generate_article text fmt (some ta) tr gr).1.map Prod.fst
        = [0, 40, 90, 100]) :=
  generate_article_pcts text fmt ta tr gr a hok

/-- C4 witness: a completing call with a real response reports exactly
`0, 40, 90, 100`. -/
theorem C4_milestones_witness :
    (generate_article "t".toList .faq (some fallbackTopics) none
        (some "# T\nbody".toList)).1.map Prod.fst = [0, 40, 90, 100] :=
  (C4_milestones "t".toList .faq fallbackTopics none
      (some "# T\nbody".toList)
      (Article.make (.str "T".toList) .faq "# T\nbody".toList
        fallbackTopics.main_topics 0 0) rfl).2
    "# T\nbody".toList rfl rfl

/-! ## C8 — unfence-then-parse agrees with strict parsing -/

/-- The fenced response `"```json\n" + j + "\n```"`. -/
def fencedResp (j : List Char) : List Char :=
  "```json\n".toList ++ j ++ "\n```".toList

theorem dropLeading_append_of_ne (p : Char → Bool) (s t : List Char)
    (h : dropLeading p s ≠ []) :
    dropLeading p (s ++ t) = dropLeading p s ++ t := by
  induction s with
  | nil => exact absurd rfl h
  | cons c cs ih =>
    by_cases hc : p c
    · rw [List.cons_append, dropLeading, if_pos hc]
      rw [dropLeading, if_pos hc] at h ⊢
      exact ih h
    · rw [List.cons_append, dropLeading, if_neg hc, dropLeading, if_neg hc]
      rfl

theorem dropLeading_append_of_nil (p : Char → Bool) (s t : List Char)
    (h : dropLeading p s = []) :
    dropLeading p (s ++ t) = dropLeading p t := by
  induction s with
  | nil => rfl
  | cons c cs ih =>
    by_cases hc : p c
    · rw [dropLeading, if_pos hc] at h
      rw [List.cons_append, dropLeading, if_pos hc]
      exact ih h
    · rw [dropLeading, if_neg hc] at h
      cases h

/-- Prepending a `'\n'` does not change the JSON-stripped string. -/
theorem jsonStrip_cons_nl (s : List Char) :
    jsonStrip ('\n' :: s) = jsonStrip s := by
  simp only [jsonStrip]
  rw [show dropLeading isJsonWs ('\n' :: s) = dropLeading isJsonWs s from by
    rw [dropLeading, if_pos (by decide)]]

/-- Appending a `'\n'` does not change the JSON-stripped string. -/
theorem jsonStrip_append_nl (s : List Char) :
    jsonStrip (s ++ ['\n']) = jsonStrip s := by
  simp only [jsonStrip]
  rcases hd : dropLeading isJsonWs s with _ | ⟨c, cs⟩
  · rw [dropLeading_append_of_nil _ s ['\n'] hd]
    rfl
  · rw [dropLeading_append_of_ne _ s ['\n'] (by rw [hd]; simp), hd]
    rw [show ((c :: cs) ++ ['\n']).reverse = '\n' :: (c :: cs).reverse from by
      simp]
    rw [show dropLeading isJsonWs ('\n' :: (c :: cs).reverse)
        = dropLeading isJsonWs ((c :: cs).reverse) from by
      rw [dropLeading, if_pos (by decide)]]

/-- `parseJson` looks only at the JSON-stripped input. -/
theorem parseJson_strip_eq (s₁ s₂ : List Char)
    (h : jsonStrip s₁ = jsonStrip s₂) : parseJson s₁ = parseJson s₂ := by
  simp only [parseJson, h]

theorem not_eq_true_of_false {b : Bool} (h : b = false) : ¬ b = true := by
  simp [h]

/-- One scan step of `upToSep` past a position where the fence does not
match. -/
theorem upToSep_cons_ne (c : Char) (cs : List Char)
    (h : pyStartsWith fenceChars (c :: cs) = false) :
    upToSep fenceChars (c :: cs) = c :: upToSep fenceChars cs := by
  rw [upToSep, if_neg (not_eq_true_of_false h)]

/-- The fence test ignores everything after a `'\n'`: the marker is three
backticks and `'\n'` is not a backtick, so a match cannot extend past
it. -/
theorem pyStartsWith_fence_nl (l t : List Char) :
    pyStartsWith fenceChars (l ++ '\n' :: t)
      = pyStartsWith fenceChars (l ++ ['\n']) := by
  rcases l with _ | ⟨a, _ | ⟨b, _ | ⟨e, l4⟩⟩⟩
  · rfl
  · rfl
  · rfl
  · rfl

/-- Appending a `'\n'` cannot create a fence occurrence. -/
theorem hasSeq_fence_append_nl (l : List Char)
    (h : hasSeq fenceChars l = false) :
    hasSeq fenceChars (l ++ ['\n']) = false := by
  induction l with
  | nil => rfl
  | cons c cs ih =>
    rw [hasSeq, Bool.or_eq_false_iff] at h
    rw [List.cons_append, hasSeq, Bool.or_eq_false_iff]
    refine ⟨?_, ih h.2⟩
    rcases cs with _ | ⟨d, cs'⟩
    · simp [pyStartsWith, fenceChars]
    · rcases cs' with _ | ⟨e, cs''⟩
      · simp [pyStartsWith, fenceChars]
      · exact h.1

/-- Scanning for the closing fence: with no fence occurrence inside
`l ++ ['\n']`, the scan stops exactly at the appended fence. -/
theorem upToSep_fence (l : List Char)
    (h : hasSeq fenceChars (l ++ ['\n']) = false) :
    upToSep fenceChars (l ++ '\n' :: fenceChars) = l ++ ['\n'] := by
  induction l with
  | nil =>
    show upToSep fenceChars ('\n' :: fenceChars) = ['\n']
    rw [upToSep, if_neg (by decide)]
    rw [show upToSep fenceChars fenceChars = [] from by
      rw [show (fenceChars : List Char) = '`' :: ['`', '`'] from rfl,
        upToSep, if_pos (by decide)]]
  | cons c cs ih =>
    rw [List.cons_append] at h ⊢
    rw [hasSeq, Bool.or_eq_false_iff] at h
    rw [upToSep]
    have hb : pyStartsWith fenceChars (c :: (cs ++ '\n' :: fenceChars))
        = pyStartsWith fenceChars (c :: (cs ++ ['\n'])) := by
      have := pyStartsWith_fence_nl (c :: cs) fenceChars
      simpa using this
    rw [if_neg (by rw [hb, h.1]; simp)]
    rw [ih h.2]
    rfl

/-- The fenced response stripped: it begins and ends with a backtick, so
`strip()` leaves it unchanged. -/
theorem pyStrip_fencedResp (j : List Char) :
    pyStrip (fencedResp j) = fencedResp j := by
  have h1 : dropLeading isPyWs (fencedResp j) = fencedResp j := by
    rw [show fencedResp j
        = '`' :: ("``json\n".toList ++ j ++ "\n```".toList) from rfl]
    rw [dropLeading, if_neg (by decide)]
  have hgroup : fencedResp j
      = ("```json\n".toList ++ (j ++ ['\n'])) ++ ['`', '`', '`'] := by
    simp only [fencedResp, List.append_assoc]
    rfl
  simp only [pyStrip, h1]
  rw [hgroup, List.reverse_append]
  rw [show (['`', '`', '`'] : List Char).reverse = ['`', '`', '`'] from rfl]
  rw [show dropLeading isPyWs
      (['`', '`', '`'] ++ ("```json\n".toList ++ (j ++ ['\n'])).reverse)
      = ['`', '`', '`'] ++ ("```json\n".toList ++ (j ++ ['\n'])).reverse from by
    rw [List.cons_append, dropLeading, if_neg (by decide)]]
  rw [show ((['`', '`', '`'] : List Char)
      ++ ("```json\n".toList ++ (j ++ ['\n'])).reverse)
      = (("```json\n".toList ++ (j ++ ['\n'])) ++ ['`', '`', '`']).reverse from by
    simp [List.reverse_append]]
  exact List.reverse_reverse _

/-- The unfencing procedure on a fenced response whose body contains no
fence marker: `strip()` is the identity here, the opening fence is
detected, the scan stops at the closing fence, the `json` language tag
is dropped, and `"\n" + j + "\n"` is what remains. -/
theorem unfence_fencedResp (j : List Char)
    (hj : hasSeq fenceChars j = false) :
    unfence (fencedResp j) = '\n' :: (j ++ ['\n']) := by
  have hs := pyStrip_fencedResp j
  have hE : fencedResp j
      = '`' :: '`' :: '`' :: 'j' :: 's' :: 'o' :: 'n' :: '\n'
        :: (j ++ '\n' :: fenceChars) := rfl
  simp only [unfence, hs]
  rw [if_pos (by rw [hE]; rfl)]
  rw [show (fencedResp j).drop 3
      = 'j' :: 's' :: 'o' :: 'n' :: '\n' :: (j ++ '\n' :: fenceChars) from by
    rw [hE]
    rfl]
  rw [upToSep_cons_ne 'j'
    ('s' :: 'o' :: 'n' :: '\n' :: (j ++ '\n' :: fenceChars)) rfl]
  rw [upToSep_cons_ne 's' ('o' :: 'n' :: '\n' :: (j ++ '\n' :: fenceChars)) rfl]
  rw [upToSep_cons_ne 'o' ('n' :: '\n' :: (j ++ '\n' :: fenceChars)) rfl]
  rw [upToSep_cons_ne 'n' ('\n' :: (j ++ '\n' :: fenceChars)) rfl]
  rw [upToSep_cons_ne '\n' (j ++ '\n' :: fenceChars) rfl]
  rw [upToSep_fence j (hasSeq_fence_append_nl j hj)]
  rw [if_pos (show pyStartsWith ['j', 's', 'o', 'n']
    ('j' :: 's' :: 'o' :: 'n' :: '\n' :: (j ++ ['\n'])) = true from rfl)]
  rfl

/-- C8: for every JSON object text `j` containing no fence marker, the
unfence-then-parse procedure applied to `"```json\n" + j + "\n```"`
yields the same structured object as strict parsing of `j` alone: the
procedure leaves `"\n" + j + "\n"` after trimming and fence-stripping,
and `json.loads` ignores the surrounding whitespace. -/
theorem C8_unfence_parse (j : List Char) (kvs : List (List Char × Json))
    (hfence : hasSeq fenceChars j = false)
    (hparse : parseJson j = some (.obj kvs)) :
    unfence (fencedResp j) = '\n' :: (j ++ ['\n']) ∧
    parseJson (unfence (fencedResp j)) = some (.obj kvs) ∧
    parseJson (unfence (fencedResp j)) = parseJson j := by
  have hu := unfence_fencedResp j hfence
  have heq : parseJson ('\n' :: (j ++ ['\n'])) = parseJson j :=
    parseJson_strip_eq _ _ (by rw [jsonStrip_cons_nl, jsonStrip_append_nl])
  refine ⟨hu, ?_, ?_⟩
  · rw [hu, heq, hparse]
  · rw [hu, heq]

/-- C8 witness: the spec's own example, `"```json\n{\"overall\": 7}\n```"`
parses to the same object as `"\x7b\"overall\": 7\x7d"`. -/
theorem C8_unfence_parse_witness :
    parseJson (unfence (fencedResp "\x7b\"overall\": 7\x7d".toList))
      = some (.obj [("overall".toList, .num 7)]) :=
  (C8_unfence_parse "\x7b\"overall\": 7\x7d".toList
    [("overall".toList, .num 7)] (by decide) rfl).2.1

/-! ## C1 — progress monotonicity and the final 100 in
`generate_all_formats` -/

theorem div_add_div_le (a b c : Nat) : a / c + b / c ≤ (a + b) / c := by
  rcases Nat.eq_zero_or_pos c with rfl | hc
  · simp
  · rw [Nat.le_div_iff_mul_le hc]
    have h1 : a / c * c ≤ a := Nat.div_mul_le_self a c
    have h2 : b / c * c ≤ b := Nat.div_mul_le_self b c
    calc (a / c + b / c) * c = a / c * c + b / c * c := by rw [Nat.add_mul]
    _ ≤ a + b := Nat.add_le_add h1 h2

theorem rescale_base_le (N i p : Nat) : 30 + 60 * i / N ≤ rescale N i p :=
  Nat.le_add_right _ _

theorem rescale_mono (N i : Nat) {p q : Nat} (h : p ≤ q) :
    rescale N i p ≤ rescale N i q := by
  have h6 : 6 * p / (10 * N) ≤ 6 * q / (10 * N) :=
    Nat.div_le_div_right (Nat.mul_le_mul_left 6 h)
  simp only [rescale]
  omega

/-- The rescaled value of any internal progress `p ≤ 100` in slice `i`
is at most the start of slice `i + 1`: superadditivity of floor
division makes the slices non-overlapping. -/
theorem rescale_le_next (N i p : Nat) (hp : p ≤ 100) :
    rescale N i p ≤ 30 + 60 * (i + 1) / N := by
  have h1 : 6 * p / (10 * N) ≤ 600 / (10 * N) :=
    Nat.div_le_div_right (by omega)
  have h2 : (600 : Nat) / (10 * N) = 60 / N := by
    rw [show (600 : Nat) = 10 * 60 from rfl]
    exact Nat.mul_div_mul_left 60 N (by norm_num)
  have h3 : 60 * i / N + 60 / N ≤ (60 * i + 60) / N := div_add_div_le _ _ _
  have h4 : 60 * i + 60 = 60 * (i + 1) := by ring
  rw [h2] at h1
  rw [h4] at h3
  simp only [rescale]
  omega

theorem rescale_le_90 (N i p : Nat) (hiN : i + 1 ≤ N) (hp : p ≤ 100) :
    rescale N i p ≤ 90 := by
  have h := rescale_le_next N i p hp
  have h6 : 60 * (i + 1) ≤ 60 * N := Nat.mul_le_mul_left 60 hiN
  have h7 : 60 * N / N ≤ 60 := by
    rcases Nat.eq_zero_or_pos N with rfl | hN
    · simp
    · rw [Nat.mul_div_cancel _ hN]
  have h8 : 60 * (i + 1) / N ≤ 60 :=
    le_trans (Nat.div_le_div_right h6) h7
  omega

theorem base_mono (N i : Nat) :
    30 + 60 * i / N ≤ 30 + 60 * (i + 1) / N := by
  have : 60 * i / N ≤ 60 * (i + 1) / N :=
    Nat.div_le_div_right (by omega)
  omega

/-- The inner percentage milestones of a completing slice are `[0, 40]`
or `[0, 40, 90, 100]` (claim C4's two shapes), as a disjunction. -/
theorem inner_pcts_cases (text : List Char) (fmt : ArticleFormat)
    (ta : TopicAnalysis) (g : Option (List Char)) (a : Article)
    (hok : (generate_article text fmt (some ta) none g).2 = .ok a) :
    (generate_article text fmt (some ta) none g).1.map Prod.fst = [0, 40] ∨
    (generate_article text fmt (some ta) none g).1.map Prod.fst
      = [0, 40, 90, 100] := by
  rcases g with _ | r
  · exact Or.inl
      ((generate_article_pcts text fmt ta none none a hok).1 (Or.inl rfl))
  · by_cases hre : r.isEmpty
    · refine Or.inl
        ((generate_article_pcts text fmt ta none (some r) a hok).1 (Or.inr ?_))
      rw [List.isEmpty_iff] at hre
      rw [hre]
    · exact Or.inr ((generate_article_pcts text fmt ta none (some r) a hok).2
        r rfl (eq_false_of_ne_true hre))

/-- Invariant of the slice loop of `generate_all_formats`: on a
completing run starting at slice `i` with at most `N` slices in total,
the rescaled percentages form a non-decreasing chain that stays between
the start of slice `i` and 90. -/
theorem gen_loop_props (text : List Char) (ta : TopicAnalysis)
    (gr : Nat → Option (List Char)) (N : Nat) (fs : List ArticleFormat) :
    ∀ (i : Nat) (arts : List Article),
      i + fs.length ≤ N →
      (gen_loop text ta gr N fs i).2 = .ok arts →
      List.Chain' (· ≤ ·) ((gen_loop text ta gr N fs i).1.map Prod.fst) ∧
      (∀ p ∈ (gen_loop text ta gr N fs i).1.map Prod.fst,
        30 + 60 * i / N ≤ p ∧ p ≤ 90) := by
  induction fs with
  | nil =>
    intro i arts _ _
    constructor
    · simp [gen_loop]
    · intro p hp
      simp [gen_loop] at hp
  | cons fmt rest ih =>
    intro i arts hlen hok
    rcases hinner : (generate_article text fmt (some ta) none (gr i)).2
      with e | a
    · rw [show (gen_loop text ta gr N (fmt :: rest) i).2 = .error e from by
        simp [gen_loop, hinner]] at hok
      cases hok
    · rcases htail : (gen_loop text ta gr N rest (i + 1)).2 with e | arts'
      · rw [show (gen_loop text ta gr N (fmt :: rest) i).2 = .error e from by
          simp [gen_loop, hinner, htail, Except.map]] at hok
        cases hok
      · have hev : (gen_loop text ta gr N (fmt :: rest) i).1.map Prod.fst
            = ((generate_article text fmt (some ta) none (gr i)).1.map
                Prod.fst).map (rescale N i)
              ++ (gen_loop text ta gr N rest (i + 1)).1.map Prod.fst := by
          simp [gen_loop, hinner, List.map_map]
        have hiN : i + 1 ≤ N := by
          simp only [List.length_cons] at hlen
          omega
        have hIH := ih (i + 1) arts' (by
          simp only [List.length_cons] at hlen
          omega) htail
        have hcases := inner_pcts_cases text fmt ta (gr i) a hinner
        have hsliceChain :
            List.Chain' (· ≤ ·)
              (((generate_article text fmt (some ta) none (gr i)).1.map
                Prod.fst).map (rescale N i)) := by
          rcases hcases with hc | hc
          · rw [hc]
            simp [List.chain'_cons]
            exact rescale_mono N i (by norm_num)
          · rw [hc]
            simp [List.chain'_cons]
            refine ⟨rescale_mono N i (by norm_num),
              rescale_mono N i (by norm_num), rescale_mono N i (by norm_num)⟩
        have hsliceBound :
            ∀ p ∈ ((generate_article text fmt (some ta) none (gr i)).1.map
                Prod.fst).map (rescale N i),
              30 + 60 * i / N ≤ p ∧ p ≤ 90 := by
          intro p hp
          rcases hcases with hc | hc
          · rw [hc] at hp
            simp at hp
            rcases hp with rfl | rfl
            · exact ⟨rescale_base_le N i 0, rescale_le_90 N i 0 hiN (by norm_num)⟩
            · exact ⟨rescale_base_le N i 40,
                rescale_le_90 N i 40 hiN (by norm_num)⟩
          · rw [hc] at hp
            simp at hp
            rcases hp with rfl | rfl | rfl | rfl
            · exact ⟨rescale_base_le N i 0, rescale_le_90 N i 0 hiN (by norm_num)⟩
            · exact ⟨rescale_base_le N i 40,
                rescale_le_90 N i 40 hiN (by norm_num)⟩
            · exact ⟨rescale_base_le N i 90,
                rescale_le_90 N i 90 hiN (by norm_num)⟩
            · exact ⟨rescale_base_le N i 100,
                rescale_le_90 N i 100 hiN (by norm_num)⟩
        have hsliceLast :
            ∀ x ∈ (((generate_article text fmt (some ta) none (gr i)).1.map
                Prod.fst).map (rescale N i)).getLast?,
              x ≤ 30 + 60 * (i + 1) / N := by
          intro x hx
          rcases hcases with hc | hc
          · rw [hc] at hx
            simp at hx
            have h40 := rescale_le_next N i 40 (by norm_num)
            linarith
          · rw [hc] at hx
            simp at hx
            have h100 := rescale_le_next N i 100 (by norm_num)
            linarith
        rw [hev]
        constructor
        · rw [List.chain'_append]
          refine ⟨hsliceChain, hIH.1, ?_⟩
          intro x hx y hy
          have hxle := hsliceLast x hx
          have hyge := (hIH.2 y (List.mem_of_mem_head? hy)).1
          linarith
        · intro p hp
          rcases List.mem_append.mp hp with hp | hp
          · exact hsliceBound p hp
          · have := hIH.2 p hp
            have := base_mono N i
            omega

/-- On a completing run, each slice `k`'s inner events appear in the
loop's event list rescaled by the slice formula. -/
theorem gen_loop_mem (text : List Char) (ta : TopicAnalysis)
    (gr : Nat → Option (List Char)) (N : Nat) (fs : List ArticleFormat) :
    ∀ (i₀ : Nat) (arts : List Article),
      (gen_loop text ta gr N fs i₀).2 = .ok arts →
      ∀ k fmt, fs.get? k = some fmt →
      ∀ pm ∈ (generate_article text fmt (some ta) none (gr (i₀ + k))).1,
        (rescale N (i₀ + k) pm.1, pm.2) ∈ (gen_loop text ta gr N fs i₀).1 := by
  induction fs with
  | nil =>
    intro i₀ arts _ k fmt hk
    simp [List.get?] at hk
  | cons f rest ih =>
    intro i₀ arts hok k fmt hk pm hpm
    rcases hinner : (generate_article text f (some ta) none (gr i₀)).2
      with e | a
    · rw [show (gen_loop text ta gr N (f :: rest) i₀).2 = .error e from by
        simp [gen_loop, hinner]] at hok
      cases hok
    · rcases htail : (gen_loop text ta gr N rest (i₀ + 1)).2 with e | arts'
      · rw [show (gen_loop text ta gr N (f :: rest) i₀).2 = .error e from by
          simp [gen_loop, hinner, htail, Except.map]] at hok
        cases hok
      · have hev : (gen_loop text ta gr N (f :: rest) i₀).1
            = (generate_article text f (some ta) none (gr i₀)).1.map
                (fun pm => (rescale N i₀ pm.1, pm.2))
              ++ (gen_loop text ta gr N rest (i₀ + 1)).1 := by
          simp [gen_loop, hinner]
        rw [hev]
        cases k with
        | zero =>
          simp only [List.get?] at hk
          cases hk
          rw [Nat.add_zero] at hpm ⊢
          exact List.mem_append_left _
            (List.mem_map_of_mem (fun pm => (rescale N i₀ pm.1, pm.2)) hpm)
        | succ k' =>
          simp only [List.get?] at hk
          have hstep : i₀ + (k' + 1) = (i₀ + 1) + k' := by omega
          rw [hstep] at hpm ⊢
          exact List.mem_append_right _
            (ih (i₀ + 1) arts' htail k' fmt hk pm hpm)

set_option linter.unusedVariables false in
/-- C1: for every source text, every non-empty list of `N` requested
formats and every completing run of `generate_all_formats` (with the
responses of the external service arbitrary), (1) the full sequence of
reported percentages is monotonically non-decreasing, (2) the final
reported percentage is exactly 100, and (3) each format's internal
progress report `p` in slice `i` appears rescaled as
`30 + 60*i/N + p*0.6/N` with the integer truncations the code performs
(`30 + int(60*i/N) + int(p*0.6/N)`, embedded as exact floor
divisions). -/
theorem C1_progress (text : List Char) (formats : List ArticleFormat)
    (tr : Option (List Char)) (gr : Nat → Option (List Char))
    (ta : TopicAnalysis) (res : GenerationResult)
    (hne : formats ≠ [])
    (hta : (extract_topics tr).2 = .ok ta)
    (hok : (generate_all_formats text (some formats) tr gr).2 = .ok res) :
    List.Chain' (· ≤ ·)
      ((generate_all_formats text (some formats) tr gr).1.map Prod.fst) ∧
    ((generate_all_formats text (some formats) tr gr).1.map
        Prod.fst).getLast? = some 100 ∧
    (∀ i fmt, formats.get? i = some fmt →
      ∀ pm ∈ (generate_article text fmt (some ta) none (gr i)).1,
        (30 + 60 * i / formats.length + 6 * pm.1 / (10 * formats.length),
          pm.2) ∈ (generate_all_formats text (some formats) tr gr).1) := by
  rcases hx : extract_topics tr with ⟨evs, res0⟩
  have hevs : evs
      = [(10, "Extracting topics..."), (30, "Parsing topic analysis...")] := by
    have := extract_topics_events tr
    rw [hx] at this
    exact this
  rw [hx] at hta
  simp only at hta
  subst hta
  subst hevs
  rcases hloop : (gen_loop text ta gr formats.length formats 0).2
    with e | arts
  · rw [show (generate_all_formats text (some formats) tr gr).2
        = .error e from by simp [generate_all_formats, hx, hloop]] at hok
    cases hok
  · have hG : (generate_all_formats text (some formats) tr gr).1
        = (0, "Starting article generation...")
          :: [(10, "Extracting topics..."), (30, "Parsing topic analysis...")]
          ++ (gen_loop text ta gr formats.length formats 0).1
          ++ [(100, "Generated " ++ toString arts.length ++ " articles")] := by
      simp [generate_all_formats, hx, hloop]
    have hprops := gen_loop_props text ta gr formats.length formats 0 arts
      (by omega) hloop
    have hL30 : ∀ p ∈ (gen_loop text ta gr formats.length formats 0).1.map
        Prod.fst, 30 ≤ p ∧ p ≤ 90 := by
      intro p hp
      have := hprops.2 p hp
      simp at this
      omega
    refine ⟨?_, ?_, ?_⟩
    · rw [hG]
      simp only [List.cons_append, List.map_cons, List.map_append,
        List.map_cons, List.map_nil]
      rw [List.chain'_cons']
      refine ⟨by intro y hy; simp at hy; omega, ?_⟩
      rw [List.chain'_cons']
      refine ⟨by intro y hy; simp at hy; omega, ?_⟩
      rw [List.chain'_cons']
      constructor
      · intro y hy
        rcases hLp : (gen_loop text ta gr formats.length formats 0).1.map
          Prod.fst with _ | ⟨z, l⟩
        · rw [hLp] at hy
          simp at hy
          omega
        · rw [hLp] at hy
          simp at hy
          have := (hL30 z (by rw [hLp]; simp)).1
          omega
      · rw [List.chain'_append]
        refine ⟨hprops.1, List.chain'_singleton _, ?_⟩
        intro x hx y hy
        simp at hy
        have := (hL30 x (List.mem_of_mem_getLast? hx)).2
        omega
    · rw [hG]
      simp only [List.map_append, List.map_cons, List.map_nil]
      rw [List.getLast?_concat]
    · intro i fmt hi pm hpm
      have hmem := gen_loop_mem text ta gr formats.length formats 0 arts
        hloop i fmt hi pm (by rw [Nat.zero_add]; exact hpm)
      rw [Nat.zero_add] at hmem
      rw [hG]
      exact List.mem_append_left _ (List.mem_append_right _ hmem)

/-- C1 witness: a concrete completing two-format run (service absent for
everything): the reported percentages are `0, 10, 30, 30, 42, 60, 72,
100` — non-decreasing with final value 100 — and slice 1's inner report
40 appears as `30 + 60*1/2 + 6*40/20 = 72`. -/
theorem C1_progress_witness :
    ([.blog_post, .faq] : List ArticleFormat) ≠ [] ∧
    ((generate_all_formats "hello".toList (some [.blog_post, .faq]) none
        (fun _ => none)).1.map Prod.fst) = [0, 10, 30, 30, 42, 60, 72, 100] ∧
    List.Chain' (· ≤ ·)
      ((generate_all_formats "hello".toList (some [.blog_post, .faq]) none
        (fun _ => none)).1.map Prod.fst) ∧
    ((generate_all_formats "hello".toList (some [.blog_post, .faq]) none
        (fun _ => none)).1.map Prod.fst).getLast? = some 100 ∧
    (30 + 60 * 1 / 2 + 6 * 40 / (10 * 2), "Writing faq content...")
      ∈ (generate_all_formats "hello".toList (some [.blog_post, .faq]) none
        (fun _ => none)).1 := by
  have H := C1_progress "hello".toList [.blog_post, .faq] none (fun _ => none)
    fallbackTopics
    { source_text := "hello".toList, topic_analysis := fallbackTopics,
      articles :=
        [Article.make sentinelTitle .blog_post sentinelContent
          fallbackTopics.main_topics 0 0,
         Article.make sentinelTitle .faq sentinelContent
          fallbackTopics.main_topics 0 0],
      generation_time := 0 }
    (by simp) rfl rfl
  refine ⟨by simp, rfl, H.1, H.2.1, ?_⟩
  exact H.2.2 1 .faq rfl (40, "Writing faq content...") (by
    rw [show (generate_article "hello".toList .faq (some fallbackTopics) none
      none).1 = [(0, "Generating faq article..."),
        (40, "Writing faq content...")] from rfl]
    simp)

end WhisperFedora
